import Mathlib

/-!
# Verification of the development watch supervisor (`ci/dev/watch.ts`)

This file gives a shallow embedding of the watch supervisor implemented in
`ci/dev/watch.ts` and proves properties of it.  The supervisor spawns a set of
build-watcher child processes (`vscode`, `vscodeWebExtensions`, `tsc`, and
optionally `plugin` when the environment variable `PLUGIN_DIR` is set),
listens to their output lines, restarts the application server process on
trigger phrases, and tears everything down in a single `cleanup` routine.

The embedding is event-driven and trace-based: every routine of the source is
a pure function from the supervisor state to a new state together with the
ordered list of primitive observable effects (`Action`) it performs.  Process
identifiers are abstract: the embedding assigns them from a counter, standing
for the identifiers the operating system would hand out.
-/

namespace Watch

/-- A handle to a spawned child process (`cp.ChildProcess` in the source).
Only the process identifier is relevant to the properties proved here. -/
structure ChildProcess where
  pid : Nat
deriving DecidableEq, Repr

/-- The subprocesses managed by the supervisor, used to tag the observable
effects with the handle they act on.  The four watcher sources correspond to
the variables `vscode`, `vscodeWebExtensions`, `tsc` and `plugin` of
`watch()`; `server` is the restartable application server slot. -/
inductive Source
  | vscode
  | vscodeWebExtensions
  | tsc
  | plugin
  | server
deriving DecidableEq, Repr

/-- Primitive observable effects of the supervisor, in the order performed.

* `log msg` is `Watcher.log(msg)` (a line on the supervisor's stdout);
* `taggedLog src text` is `console.log("[tag]", text)` — a stdout line made of
  the tag identifying `src` followed by `text`;
* `consoleLog msg` is `console.log(msg)` with a single string argument;
* `spawn src cmd args pid` is `cp.spawn(cmd, args, { cwd })` producing `pid`;
* `fork pid args` is `cp.fork(entryModule, args)` producing `pid`;
* `removeAllListeners src pid` is `handle.removeAllListeners()`;
* `kill src pid` is `handle.kill()` (a termination request, fire-and-forget);
* `exitProcess code` is `process.exit(code)`;
* `writeStderr data` is `process.stderr.write(data)`. -/
inductive Action
  | log (msg : String)
  | taggedLog (src : Source) (text : String)
  | consoleLog (msg : String)
  | spawn (src : Source) (cmd : String) (args : List String) (pid : Nat)
  | fork (pid : Nat) (args : List String)
  | removeAllListeners (src : Source) (pid : Nat)
  | kill (src : Source) (pid : Nat)
  | exitProcess (code : Int)
  | writeStderr (data : String)
deriving DecidableEq, Repr

/-- The state of the supervisor after `watch()` has completed its synchronous
setup.  `argv` models `process.argv` (program name, script name, then the
user-supplied arguments).  `server` is the mutable server slot (`let server:
cp.ChildProcess | undefined`).  `nextPid` is the next process identifier the
environment will assign.  `exited` records the code passed to `process.exit`,
if the supervisor has exited. -/
structure WatchState where
  argv : List String
  vscode : ChildProcess
  vscodeWebExtensions : ChildProcess
  tsc : ChildProcess
  plugin : Option ChildProcess
  server : Option ChildProcess
  nextPid : Nat
  exited : Option Int
deriving DecidableEq, Repr

/-- Whether the character list `s` starts with the character list `sub`. -/
def startsWithChars : List Char → List Char → Bool
  | _, [] => true
  | [], _ :: _ => false
  | c :: cs, d :: ds => c == d && startsWithChars cs ds

/-- Whether the character list `sub` occurs contiguously inside `s`. -/
def hasSub : List Char → List Char → Bool
  | [], sub => sub.isEmpty
  | c :: cs, sub => startsWithChars (c :: cs) sub || hasSub cs sub

/-- JavaScript `s.includes(sub)`: `true` iff `sub` occurs as a substring of
`s` (and always `true` for the empty search string). -/
def includes (s sub : String) : Bool :=
  hasSub s.data sub.data

/-- JavaScript `code || 0` where `code : number | null | undefined`:
`null`, `undefined` and `0` are falsy and yield `0`; any other number is
returned unchanged.  `none` stands for both `null` and `undefined`. -/
def orZero : Option Int → Int
  | none => 0
  | some c => if c = 0 then 0 else c

/-- Drop leading whitespace characters from a character list. -/
def dropLeadingWhite : List Char → List Char
  | [] => []
  | c :: cs => if c.isWhitespace then dropLeadingWhite cs else c :: cs

/-- Trim whitespace from both ends of a character list. -/
def trimChars (cs : List Char) : List Char :=
  dropLeadingWhite (dropLeadingWhite cs.reverse).reverse

/-- Modelled from the spec: the Line Reader (`onLine` from `src/node/util`,
not part of this repository snapshot) "invokes a callback once per
newline-delimited chunk, providing both the trimmed line and the original raw
text".  Trimming removes whitespace from both ends of the line.  Thus a
callback registered through it receives `(lineReaderTrim original, original)`. -/
def lineReaderTrim (original : String) : String :=
  String.mk (trimChars original.data)

/-- The `restartServer` closure of `watch()`:

```
if (server) { server.kill() }
const s = cp.fork(path.join(this.rootPath, "out/node/entry.js"), process.argv.slice(2))
console.log(`[server] spawned process ${s.pid}`)
s.on("exit", () => console.log(`[server] process ${s.pid} exited`))
server = s
```

The kill of the current occupant (if any) happens strictly before the fork of
the new process; the slot is then updated to the new handle.  Attaching the
exit listener is not itself an observable effect; its behaviour is
`serverExitListener` below. -/
def restartServer (st : WatchState) : WatchState × List Action :=
  ({ st with server := some ⟨st.nextPid⟩, nextPid := st.nextPid + 1 },
    (match st.server with
      | some s => [Action.kill Source.server s.pid]
      | none => []) ++
    [Action.fork st.nextPid (st.argv.drop 2),
     Action.consoleLog ("[server] spawned process " ++ toString st.nextPid)])

/-- The exit listener `restartServer` attaches to each freshly forked server
process `s`.  It closes over `s.pid` and only logs; it does not call
`cleanup`, does not fork a replacement, and leaves the state unchanged. -/
def serverExitListener (pid : Nat) (st : WatchState) : WatchState × List Action :=
  (st, [Action.consoleLog ("[server] process " ++ toString pid ++ " exited")])

/-- The `cleanup` closure of `watch()`: for each subprocess, in the fixed
order `vscode`, `vscodeWebExtensions`, `tsc`, then `plugin` (if present) and
`server` (if present), it logs a message, removes all listeners from the
handle, and kills it; finally it logs `"killing watch"` and calls
`process.exit(code || 0)`. -/
def cleanup (st : WatchState) (code : Option Int) : WatchState × List Action :=
  ({ st with exited := some (orZero code) },
    [Action.log "killing vs code watcher",
     Action.removeAllListeners Source.vscode st.vscode.pid,
     Action.kill Source.vscode st.vscode.pid,
     Action.log "killing vs code web extension watcher",
     Action.removeAllListeners Source.vscodeWebExtensions st.vscodeWebExtensions.pid,
     Action.kill Source.vscodeWebExtensions st.vscodeWebExtensions.pid,
     Action.log "killing tsc",
     Action.removeAllListeners Source.tsc st.tsc.pid,
     Action.kill Source.tsc st.tsc.pid] ++
    (match st.plugin with
      | some p =>
        [Action.log "killing plugin",
         Action.removeAllListeners Source.plugin p.pid,
         Action.kill Source.plugin p.pid]
      | none => []) ++
    (match st.server with
      | some s =>
        [Action.log "killing server",
         Action.removeAllListeners Source.server s.pid,
         Action.kill Source.server s.pid]
      | none => []) ++
    [Action.log "killing watch",
     Action.exitProcess (orZero code)])

/-- The termination signals the supervisor listens for. -/
inductive Signal
  | SIGINT
  | SIGTERM
deriving DecidableEq, Repr

/-- Both signal handlers, `process.on("SIGINT", () => cleanup())` and
`process.on("SIGTERM", () => cleanup())`, invoke `cleanup` with no
argument. -/
def onSignal (st : WatchState) (sig : Signal) : WatchState × List Action :=
  match sig with
  | Signal.SIGINT => cleanup st none
  | Signal.SIGTERM => cleanup st none

/-- The `exit` event handlers.  Each watcher's handler logs a message and
invokes `cleanup(code)`; the handler for `plugin` exists only when the plugin
subprocess was spawned.  A server process's exit runs only the informational
listener attached by `restartServer` (closing over that process's pid). -/
def onExit (st : WatchState) (src : Source) (code : Option Int) :
    WatchState × List Action :=
  match src with
  | Source.vscode =>
    let r := cleanup st code
    (r.1, Action.log "vs code watcher terminated unexpectedly" :: r.2)
  | Source.vscodeWebExtensions =>
    let r := cleanup st code
    (r.1, Action.log "vs code extension watcher terminated unexpectedly" :: r.2)
  | Source.tsc =>
    let r := cleanup st code
    (r.1, Action.log "tsc terminated unexpectedly" :: r.2)
  | Source.plugin =>
    match st.plugin with
    | some _ =>
      let r := cleanup st code
      (r.1, Action.log "plugin terminated unexpectedly" :: r.2)
    | none => (st, [])
  | Source.server =>
    match st.server with
    | some s => serverExitListener s.pid st
    | none => (st, [])

/-- The `onLine` callback registered for the `vscode` watcher:

```
console.log("[vscode]", original)
if (line.includes("Finished compilation")) { restartServer() }
```

where `line` is the trimmed text supplied by the Line Reader. -/
def vscodeOnLine (st : WatchState) (original : String) : WatchState × List Action :=
  let line := lineReaderTrim original
  let echo := [Action.taggedLog Source.vscode original]
  if includes line "Finished compilation" then
    let r := restartServer st
    (r.1, echo ++ r.2)
  else
    (st, echo)

/-- The `onLine` callback registered for the `tsc` watcher: blank trimmed
lines are not echoed, every line is scanned for the trigger phrase:

```
if (line !== "") { console.log("[tsc]", original) }
if (line.includes("Watching for file changes")) { restartServer() }
``` -/
def tscOnLine (st : WatchState) (original : String) : WatchState × List Action :=
  let line := lineReaderTrim original
  let echo :=
    if line ≠ "" then [Action.taggedLog Source.tsc original] else []
  if includes line "Watching for file changes" then
    let r := restartServer st
    (r.1, echo ++ r.2)
  else
    (st, echo)

/-- The `onLine` callback registered for the `plugin` watcher (only when the
plugin subprocess exists); identical to the `tsc` callback except for the
tag. -/
def pluginOnLine (st : WatchState) (original : String) : WatchState × List Action :=
  let line := lineReaderTrim original
  let echo :=
    if line ≠ "" then [Action.taggedLog Source.plugin original] else []
  if includes line "Watching for file changes" then
    let r := restartServer st
    (r.1, echo ++ r.2)
  else
    (st, echo)

/-- Dispatch of a stdout line event.  `watch()` registers `onLine` callbacks
only for `vscode`, `tsc` and (when present) `plugin`; the stdout of
`vscodeWebExtensions` and of the server is not consumed, so a line arriving
from them runs no callback at all. -/
def onLineEvent (st : WatchState) (src : Source) (original : String) :
    WatchState × List Action :=
  match src with
  | Source.vscode => vscodeOnLine st original
  | Source.tsc => tscOnLine st original
  | Source.plugin =>
    match st.plugin with
    | some _ => pluginOnLine st original
    | none => (st, [])
  | Source.vscodeWebExtensions => (st, [])
  | Source.server => (st, [])

/-- Dispatch of a stderr data event: the stderr of every watcher (the plugin
watcher only when present) is forwarded verbatim to the supervisor's stderr;
the server's stderr has no handler. -/
def onStderrData (st : WatchState) (src : Source) (data : String) : List Action :=
  match src with
  | Source.vscode => [Action.writeStderr data]
  | Source.vscodeWebExtensions => [Action.writeStderr data]
  | Source.tsc => [Action.writeStderr data]
  | Source.plugin =>
    match st.plugin with
    | some _ => [Action.writeStderr data]
    | none => []
  | Source.server => []

/-- The synchronous setup of `watch()`: spawn the three built-in watchers
and, when `PLUGIN_DIR` is set (`pluginDir = some dir`), the plugin watcher;
the server slot starts empty.  Process identifiers are assigned from a
counter standing for the operating system's choice. -/
def setup (pluginDir : Option String) (argv : List String) :
    WatchState × List Action :=
  ({ argv := argv
     vscode := ⟨1⟩
     vscodeWebExtensions := ⟨2⟩
     tsc := ⟨3⟩
     plugin := pluginDir.map fun _ => ⟨4⟩
     server := none
     nextPid := 5
     exited := none },
    [Action.spawn Source.vscode "yarn" ["watch"] 1,
     Action.spawn Source.vscodeWebExtensions "yarn" ["watch-web"] 2,
     Action.spawn Source.tsc "tsc" ["--watch", "--pretty", "--preserveWatchOutput"] 3] ++
    (match pluginDir with
      | some _ => [Action.spawn Source.plugin "yarn" ["build", "--watch"] 4]
      | none => []))

/-- The asynchronous events the supervisor reacts to after setup. -/
inductive Event
  | line (src : Source) (original : String)
  | exitEvent (src : Source) (code : Option Int)
  | signal (sig : Signal)
  | stderrData (src : Source) (data : String)

/-- One reaction of the supervisor to an event. -/
def step (st : WatchState) (e : Event) : WatchState × List Action :=
  match e with
  | Event.line src original => onLineEvent st src original
  | Event.exitEvent src code => onExit st src code
  | Event.signal sig => onSignal st sig
  | Event.stderrData src data => (st, onStderrData st src data)

/-- Run the supervisor over a sequence of events, accumulating the trace. -/
def run (st : WatchState) : List Event → WatchState × List Action
  | [] => (st, [])
  | e :: es =>
    let r := step st e
    let r2 := run r.1 es
    (r2.1, r.2 ++ r2.2)

/-- A whole session: setup followed by a sequence of events. -/
def watchRun (pluginDir : Option String) (argv : List String)
    (es : List Event) : WatchState × List Action :=
  let s := setup pluginDir argv
  let r := run s.1 es
  (r.1, s.2 ++ r.2)

/-- Action `a` occurs strictly before action `b` in the trace `acts`. -/
def precedes (acts : List Action) (a b : Action) : Prop :=
  ∃ i j : Nat, i < j ∧ acts[i]? = some a ∧ acts[j]? = some b

/-- Whether a trace forks a new server process (i.e. contains a restart's
spawn step). -/
def forksServer (acts : List Action) : Bool :=
  acts.any fun a =>
    match a with
    | Action.fork _ _ => true
    | _ => false

/-- Whether an action touches the plugin subprocess: spawning it, echoing a
plugin-tagged line, detaching its listeners, killing it, or logging the
plugin-kill step of `cleanup`. -/
def mentionsPlugin : Action → Bool
  | Action.spawn Source.plugin _ _ _ => true
  | Action.taggedLog Source.plugin _ => true
  | Action.removeAllListeners Source.plugin _ => true
  | Action.kill Source.plugin _ => true
  | Action.log m => m == "killing plugin"
  | _ => false

/-- A trace free of any plugin-related action. -/
def pluginFree (acts : List Action) : Bool :=
  acts.all fun a => !(mentionsPlugin a)


/-- A concrete supervisor state used to instantiate theorems: the plugin
watcher is present and the server slot holds process 7. -/
def stEx : WatchState :=
  { argv := ["node", "watch.js", "--port", "8080"]
    vscode := ⟨1⟩
    vscodeWebExtensions := ⟨2⟩
    tsc := ⟨3⟩
    plugin := some ⟨4⟩
    server := some ⟨7⟩
    nextPid := 8
    exited := none }

/-- C1: if the server slot holds an occupant, the occupant is killed before
the new server process is forked; every kill in the trace of one invocation
precedes every fork (the two steps are sequential, never concurrent); and
after the invocation the slot references exactly the newly forked process. -/
theorem restartServer_kill_before_spawn (st : WatchState) :
    ((restartServer st).1.server = some ⟨st.nextPid⟩) ∧
    (∀ p, st.server = some p →
      precedes (restartServer st).2 (Action.kill Source.server p.pid)
        (Action.fork st.nextPid (st.argv.drop 2))) ∧
    (∀ (i j : Nat) (src : Source) (pk pf : Nat) (args : List String),
      ((restartServer st).2)[i]? = some (Action.kill src pk) →
      ((restartServer st).2)[j]? = some (Action.fork pf args) → i < j) := by
  refine ⟨rfl, ?_, ?_⟩
  · intro p hp
    exact ⟨0, 1, by omega, by simp [restartServer, hp], by simp [restartServer, hp]⟩
  · intro i j src pk pf args hi hj
    cases hsv : st.server with
    | none =>
      simp only [restartServer, hsv, List.nil_append] at hi
      rcases i with _ | _ | i <;> simp_all
    | some s =>
      simp only [restartServer, hsv, List.cons_append, List.nil_append] at hi hj
      rcases i with _ | _ | _ | i <;> rcases j with _ | _ | _ | j <;> simp_all

/-- Witness for C1 at the concrete state `stEx`. -/
theorem restartServer_kill_before_spawn_witness :
    (restartServer stEx).1.server = some ⟨8⟩ ∧
    precedes (restartServer stEx).2 (Action.kill Source.server 7)
      (Action.fork 8 ["--port", "8080"]) := by
  have h := restartServer_kill_before_spawn stEx
  exact ⟨h.1, h.2.1 ⟨7⟩ rfl⟩

/-- C6 counterexample: at the concrete state `stEx`, whose server slot holds
process 7, `restartServer` kills the occupant but removes no listeners from
any handle: the replaced process's listeners are not detached as part of the
kill. -/
theorem restartServer_counterexample_no_detach :
    stEx.server = some ⟨7⟩ ∧
    Action.kill Source.server 7 ∈ (restartServer stEx).2 ∧
    ((restartServer stEx).2.all fun a =>
      match a with
      | Action.removeAllListeners _ _ => false
      | _ => true) = true := by
  refine ⟨rfl, ?_, rfl⟩
  simp [restartServer, stEx]

/-- C6 amended: when `restartServer` replaces the slot occupant it kills the
replaced process and updates the slot to the new one, but it removes no
listeners; the replaced handle's exit listener, attached when that process
was forked, stays in place and only logs the exit. -/
theorem restartServer_kill_without_detach (st : WatchState) (p : ChildProcess)
    (h : st.server = some p) :
    Action.kill Source.server p.pid ∈ (restartServer st).2 ∧
    (∀ (src : Source) (pid : Nat),
      Action.removeAllListeners src pid ∉ (restartServer st).2) ∧
    (restartServer st).1.server = some ⟨st.nextPid⟩ ∧
    serverExitListener p.pid (restartServer st).1 =
      ((restartServer st).1,
       [Action.consoleLog ("[server] process " ++ toString p.pid ++ " exited")]) := by
  refine ⟨?_, ?_, rfl, rfl⟩
  · simp [restartServer, h]
  · intro src pid
    simp [restartServer, h]

/-- Witness for the amended C6 at the concrete state `stEx`. -/
theorem restartServer_kill_without_detach_witness :
    Action.kill Source.server 7 ∈ (restartServer stEx).2 ∧
    Action.removeAllListeners Source.server 7 ∉ (restartServer stEx).2 :=
  ⟨(restartServer_kill_without_detach stEx ⟨7⟩ rfl).1,
   (restartServer_kill_without_detach stEx ⟨7⟩ rfl).2.1 Source.server 7⟩

/-- C9: on every restart the forked server process receives exactly the
arguments of the supervisor's own invocation beyond the program and script
name, forwarded unchanged and in the same order. -/
theorem restartServer_forwards_args (st : WatchState) (program script : String)
    (userArgs : List String) (h : st.argv = program :: script :: userArgs) :
    Action.fork st.nextPid userArgs ∈ (restartServer st).2 ∧
    (∀ (pid : Nat) (args : List String),
      Action.fork pid args ∈ (restartServer st).2 → args = userArgs) := by
  constructor
  · cases hsv : st.server <;> simp [restartServer, hsv, h]
  · intro pid args hmem
    cases hsv : st.server <;> simp [restartServer, hsv, h] at hmem <;> tauto

/-- Witness for C9 at the concrete state `stEx`. -/
theorem restartServer_forwards_args_witness :
    Action.fork 8 ["--port", "8080"] ∈ (restartServer stEx).2 :=
  (restartServer_forwards_args stEx "node" "watch.js" ["--port", "8080"] rfl).1

/-- C8: the exit of a server process never triggers the cleanup routine: the
handler run for a server exit is the informational listener, which leaves the
supervisor state unchanged, logs only the process identifier, and performs no
process exit, no kill and no fork (so no respawn happens either). -/
theorem server_exit_nonfatal (st : WatchState) (code : Option Int) :
    (onExit st Source.server code).1 = st ∧
    (∀ c : Int, Action.exitProcess c ∉ (onExit st Source.server code).2) ∧
    (∀ (src : Source) (pid : Nat),
      Action.kill src pid ∉ (onExit st Source.server code).2) ∧
    (∀ (pid : Nat) (args : List String),
      Action.fork pid args ∉ (onExit st Source.server code).2) ∧
    (∀ s, st.server = some s →
      (onExit st Source.server code).2 =
        [Action.consoleLog ("[server] process " ++ toString s.pid ++ " exited")]) := by
  cases hsv : st.server <;> simp [onExit, serverExitListener, hsv]

/-- Witness for C8 at the concrete state `stEx`. -/
theorem server_exit_nonfatal_witness :
    (onExit stEx Source.server (some 1)).1 = stEx ∧
    (onExit stEx Source.server (some 1)).2 =
      [Action.consoleLog ("[server] process " ++ toString (7 : Nat) ++ " exited")] := by
  have h := server_exit_nonfatal stEx (some 1)
  exact ⟨h.1, h.2.2.2.2 ⟨7⟩ rfl⟩


/-- The JavaScript fallback `code || 0` returns any supplied number unchanged. -/
theorem orZero_some (c : Int) : orZero (some c) = c := by
  by_cases h : c = 0 <;> simp [orZero, h]

/-- The JavaScript fallback `code || 0` is `0` when no code was supplied. -/
theorem orZero_none : orZero none = 0 := rfl

/-- The cleanup trace always ends with `process.exit(code || 0)`. -/
theorem cleanup_getLast (st : WatchState) (code : Option Int) :
    (cleanup st code).2.getLast? = some (Action.exitProcess (orZero code)) := by
  rcases hp : st.plugin with _ | p <;> rcases hs : st.server with _ | s <;>
    simp only [cleanup, hp, hs] <;> rfl

/-- A watcher exit handler's trace (a log line followed by the cleanup trace)
also ends with `process.exit(code || 0)`. -/
theorem cleanup_cons_getLast (st : WatchState) (code : Option Int) (msg : String) :
    (Action.log msg :: (cleanup st code).2).getLast? =
      some (Action.exitProcess (orZero code)) := by
  rcases hp : st.plugin with _ | p <;> rcases hs : st.server with _ | s <;>
    simp only [cleanup, hp, hs] <;> rfl

/-- C3: the supervisor exits with code 0 when cleanup is triggered by SIGINT
or SIGTERM; with the numeric code supplied by the triggering watcher's exit
event when cleanup is triggered by an unexpected watcher exit; and with 0
when that event supplied no code. -/
theorem supervisor_exit_codes (st : WatchState) (sig : Signal) (c : Int) :
    ((onSignal st sig).2.getLast? = some (Action.exitProcess 0)) ∧
    ((onSignal st sig).1.exited = some 0) ∧
    ((onExit st Source.vscode (some c)).2.getLast? = some (Action.exitProcess c)) ∧
    ((onExit st Source.vscode (some c)).1.exited = some c) ∧
    ((onExit st Source.vscodeWebExtensions (some c)).2.getLast? = some (Action.exitProcess c)) ∧
    ((onExit st Source.tsc (some c)).2.getLast? = some (Action.exitProcess c)) ∧
    (st.plugin ≠ none →
      (onExit st Source.plugin (some c)).2.getLast? = some (Action.exitProcess c)) ∧
    ((onExit st Source.vscode none).2.getLast? = some (Action.exitProcess 0)) ∧
    ((onExit st Source.vscodeWebExtensions none).2.getLast? = some (Action.exitProcess 0)) ∧
    ((onExit st Source.tsc none).2.getLast? = some (Action.exitProcess 0)) ∧
    (st.plugin ≠ none →
      (onExit st Source.plugin none).2.getLast? = some (Action.exitProcess 0)) := by
  refine ⟨?_, ?_, ?_, ?_, ?_, ?_, ?_, ?_, ?_, ?_, ?_⟩
  · cases sig <;> exact cleanup_getLast st none
  · cases sig <;> rfl
  · simpa [orZero_some] using cleanup_cons_getLast st (some c)
      "vs code watcher terminated unexpectedly"
  · simp [onExit, cleanup, orZero_some]
  · simpa [orZero_some] using cleanup_cons_getLast st (some c)
      "vs code extension watcher terminated unexpectedly"
  · simpa [orZero_some] using cleanup_cons_getLast st (some c)
      "tsc terminated unexpectedly"
  · intro hne
    rcases hp : st.plugin with _ | p
    · exact absurd hp hne
    · simp only [onExit, hp]
      simpa [orZero_some] using cleanup_cons_getLast st (some c)
        "plugin terminated unexpectedly"
  · exact cleanup_cons_getLast st none "vs code watcher terminated unexpectedly"
  · exact cleanup_cons_getLast st none "vs code extension watcher terminated unexpectedly"
  · exact cleanup_cons_getLast st none "tsc terminated unexpectedly"
  · intro hne
    rcases hp : st.plugin with _ | p
    · exact absurd hp hne
    · simp only [onExit, hp]
      exact cleanup_cons_getLast st none "plugin terminated unexpectedly"

/-- Witness for C3 at the concrete state `stEx` with exit code 2. -/
theorem supervisor_exit_codes_witness :
    ((onSignal stEx Signal.SIGINT).2.getLast? = some (Action.exitProcess 0)) ∧
    ((onExit stEx Source.tsc (some 2)).2.getLast? = some (Action.exitProcess 2)) ∧
    ((onExit stEx Source.plugin (some 2)).2.getLast? = some (Action.exitProcess 2)) := by
  have h := supervisor_exit_codes stEx Signal.SIGINT 2
  exact ⟨h.1, h.2.2.2.2.2.1, h.2.2.2.2.2.2.1 (by simp [stEx])⟩


/-- A restart's trace forks a server process. -/
theorem forksServer_restartServer (st : WatchState) :
    forksServer (restartServer st).2 = true := by
  cases h : st.server <;> simp only [restartServer, h] <;> rfl

/-- An echo action at the head of a trace does not affect whether the trace
forks a server. -/
theorem forksServer_cons_taggedLog (src : Source) (t : String) (l : List Action) :
    forksServer (Action.taggedLog src t :: l) = forksServer l := by
  simp [forksServer]

/-- Neither trigger phrase occurs in the empty (blank) line. -/
theorem includes_blank :
    includes "" "Finished compilation" = false ∧
    includes "" "Watching for file changes" = false := by
  constructor <;> rfl

/-- The vscode line callback forks a server iff the trimmed line contains the
phrase `"Finished compilation"`. -/
theorem vscodeOnLine_forks (st : WatchState) (original : String) :
    forksServer (vscodeOnLine st original).2 =
      includes (lineReaderTrim original) "Finished compilation" := by
  by_cases hI : includes (lineReaderTrim original) "Finished compilation"
  · have h1 : (vscodeOnLine st original).2 =
        Action.taggedLog Source.vscode original :: (restartServer st).2 := by
      simp [vscodeOnLine, hI]
    rw [h1, forksServer_cons_taggedLog, forksServer_restartServer, hI]
  · simp only [Bool.not_eq_true] at hI
    have h1 : (vscodeOnLine st original).2 =
        [Action.taggedLog Source.vscode original] := by
      simp [vscodeOnLine, hI]
    rw [h1, hI]
    rfl

/-- The tsc line callback forks a server iff the trimmed line contains the
phrase `"Watching for file changes"`. -/
theorem tscOnLine_forks (st : WatchState) (original : String) :
    forksServer (tscOnLine st original).2 =
      includes (lineReaderTrim original) "Watching for file changes" := by
  by_cases hI : includes (lineReaderTrim original) "Watching for file changes" <;>
    by_cases hb : lineReaderTrim original = ""
  · rw [hb] at hI
    exact absurd hI (by decide)
  · have h1 : (tscOnLine st original).2 =
        Action.taggedLog Source.tsc original :: (restartServer st).2 := by
      simp [tscOnLine, hb, hI]
    rw [h1, forksServer_cons_taggedLog, forksServer_restartServer, hI]
  · simp only [Bool.not_eq_true] at hI
    rw [hb] at hI
    have h1 : (tscOnLine st original).2 = [] := by
      simp [tscOnLine, hb, hI]
    rw [h1, hb, hI]
    rfl
  · simp only [Bool.not_eq_true] at hI
    have h1 : (tscOnLine st original).2 =
        [Action.taggedLog Source.tsc original] := by
      simp [tscOnLine, hb, hI]
    rw [h1, hI]
    rfl

/-- The plugin line callback forks a server iff the trimmed line contains the
phrase `"Watching for file changes"`. -/
theorem pluginOnLine_forks (st : WatchState) (original : String) :
    forksServer (pluginOnLine st original).2 =
      includes (lineReaderTrim original) "Watching for file changes" := by
  by_cases hI : includes (lineReaderTrim original) "Watching for file changes" <;>
    by_cases hb : lineReaderTrim original = ""
  · rw [hb] at hI
    exact absurd hI (by decide)
  · have h1 : (pluginOnLine st original).2 =
        Action.taggedLog Source.plugin original :: (restartServer st).2 := by
      simp [pluginOnLine, hb, hI]
    rw [h1, forksServer_cons_taggedLog, forksServer_restartServer, hI]
  · simp only [Bool.not_eq_true] at hI
    rw [hb] at hI
    have h1 : (pluginOnLine st original).2 = [] := by
      simp [pluginOnLine, hb, hI]
    rw [h1, hb, hI]
    rfl
  · simp only [Bool.not_eq_true] at hI
    have h1 : (pluginOnLine st original).2 =
        [Action.taggedLog Source.plugin original] := by
      simp [pluginOnLine, hb, hI]
    rw [h1, hI]
    rfl

/-- C4: a line of the editor-source watcher triggers a server restart iff its
trimmed text contains `"Finished compilation"`; a line of the type-checker
watcher (and of the plugin watcher when present) triggers a restart iff its
trimmed text contains `"Watching for file changes"`; blank trimmed lines are
scanned like any other and never trigger a restart. -/
theorem onLine_trigger_iff (st : WatchState) (original : String) :
    (forksServer (onLineEvent st Source.vscode original).2 =
      includes (lineReaderTrim original) "Finished compilation") ∧
    (forksServer (onLineEvent st Source.tsc original).2 =
      includes (lineReaderTrim original) "Watching for file changes") ∧
    (st.plugin ≠ none →
      forksServer (onLineEvent st Source.plugin original).2 =
        includes (lineReaderTrim original) "Watching for file changes") ∧
    (lineReaderTrim original = "" →
      forksServer (onLineEvent st Source.vscode original).2 = false ∧
      forksServer (onLineEvent st Source.tsc original).2 = false ∧
      forksServer (onLineEvent st Source.plugin original).2 = false) := by
  have hv : forksServer (onLineEvent st Source.vscode original).2 =
      includes (lineReaderTrim original) "Finished compilation" :=
    vscodeOnLine_forks st original
  have ht : forksServer (onLineEvent st Source.tsc original).2 =
      includes (lineReaderTrim original) "Watching for file changes" :=
    tscOnLine_forks st original
  have hp : st.plugin ≠ none →
      forksServer (onLineEvent st Source.plugin original).2 =
        includes (lineReaderTrim original) "Watching for file changes" := by
    intro hne
    rcases hpl : st.plugin with _ | p
    · exact absurd hpl hne
    · simp only [onLineEvent, hpl]
      exact pluginOnLine_forks st original
  refine ⟨hv, ht, hp, ?_⟩
  intro hb
  refine ⟨?_, ?_, ?_⟩
  · rw [hv, hb]; exact includes_blank.1
  · rw [ht, hb]; exact includes_blank.2
  · rcases hpl : st.plugin with _ | p
    · simp [onLineEvent, hpl, forksServer]
    · rw [hp (by simp [hpl]), hb]; exact includes_blank.2

/-- Witness for C4 at the concrete state `stEx` with concrete lines. -/
theorem onLine_trigger_iff_witness :
    forksServer (onLineEvent stEx Source.vscode "Finished compilation of editor core").2 = true ∧
    forksServer (onLineEvent stEx Source.tsc "Watching for file changes.").2 = true ∧
    forksServer (onLineEvent stEx Source.plugin "Watching for file changes.").2 = true ∧
    forksServer (onLineEvent stEx Source.tsc "   ").2 = false := by
  refine ⟨?_, ?_, ?_, ?_⟩
  · rw [(onLine_trigger_iff stEx "Finished compilation of editor core").1]; decide
  · rw [(onLine_trigger_iff stEx "Watching for file changes.").2.1]; decide
  · rw [(onLine_trigger_iff stEx "Watching for file changes.").2.2.1 (by decide)]; decide
  · exact ((onLine_trigger_iff stEx "   ").2.2.2 (by decide)).2.1

/-- A restart's trace contains no echo action. -/
theorem taggedLog_not_mem_restartServer (st : WatchState) (src : Source) (text : String) :
    Action.taggedLog src text ∉ (restartServer st).2 := by
  cases h : st.server <;> simp [restartServer, h]

/-- C5: every vscode line is echoed with the `[vscode]` tag and the original
untrimmed text; a tsc (or plugin) line is echoed with its tag and the
original untrimmed text exactly when its trimmed text is non-blank, and a
blank trimmed line from tsc (or plugin) produces no action at all (no echo,
no restart); every echo in a vscode or tsc trace carries the original
untrimmed text, the trimmed text being used only for matching and
suppression. -/
theorem onLine_echo_original (st : WatchState) (original : String) :
    (Action.taggedLog Source.vscode original ∈ (onLineEvent st Source.vscode original).2) ∧
    (lineReaderTrim original ≠ "" →
      Action.taggedLog Source.tsc original ∈ (onLineEvent st Source.tsc original).2) ∧
    (lineReaderTrim original = "" → onLineEvent st Source.tsc original = (st, [])) ∧
    (st.plugin ≠ none → lineReaderTrim original ≠ "" →
      Action.taggedLog Source.plugin original ∈ (onLineEvent st Source.plugin original).2) ∧
    (st.plugin ≠ none → lineReaderTrim original = "" →
      onLineEvent st Source.plugin original = (st, [])) ∧
    (∀ (src : Source) (text : String),
      Action.taggedLog src text ∈ (onLineEvent st Source.vscode original).2 →
        src = Source.vscode ∧ text = original) ∧
    (∀ (src : Source) (text : String),
      Action.taggedLog src text ∈ (onLineEvent st Source.tsc original).2 →
        src = Source.tsc ∧ text = original) := by
  have hblank : lineReaderTrim original = "" →
      onLineEvent st Source.tsc original = (st, []) := by
    intro hb
    have hI : includes "" "Watching for file changes" = false := rfl
    simp [onLineEvent, tscOnLine, hb, hI]
  refine ⟨?_, ?_, hblank, ?_, ?_, ?_, ?_⟩
  · by_cases hI : includes (lineReaderTrim original) "Finished compilation" <;>
      simp [onLineEvent, vscodeOnLine, hI]
  · intro hb
    by_cases hI : includes (lineReaderTrim original) "Watching for file changes" <;>
      simp [onLineEvent, tscOnLine, hb, hI]
  · intro hne hb
    rcases hpl : st.plugin with _ | p
    · exact absurd hpl hne
    · by_cases hI : includes (lineReaderTrim original) "Watching for file changes" <;>
        simp [onLineEvent, pluginOnLine, hpl, hb, hI]
  · intro hne hb
    rcases hpl : st.plugin with _ | p
    · exact absurd hpl hne
    · have hI : includes "" "Watching for file changes" = false := rfl
      simp [onLineEvent, pluginOnLine, hpl, hb, hI]
  · intro src text hmem
    by_cases hI : includes (lineReaderTrim original) "Finished compilation"
    · have h1 : (onLineEvent st Source.vscode original).2 =
          Action.taggedLog Source.vscode original :: (restartServer st).2 := by
        simp [onLineEvent, vscodeOnLine, hI]
      rw [h1] at hmem
      rcases List.mem_cons.mp hmem with h | h
      · have := Action.taggedLog.inj h
        exact ⟨this.1, this.2⟩
      · exact absurd h (taggedLog_not_mem_restartServer st src text)
    · have h1 : (onLineEvent st Source.vscode original).2 =
          [Action.taggedLog Source.vscode original] := by
        simp [onLineEvent, vscodeOnLine, hI]
      rw [h1] at hmem
      rcases List.mem_cons.mp hmem with h | h
      · have := Action.taggedLog.inj h
        exact ⟨this.1, this.2⟩
      · exact absurd h (by simp)
  · intro src text hmem
    by_cases hb : lineReaderTrim original = ""
    · rw [hblank hb] at hmem
      exact absurd hmem (by simp)
    · by_cases hI : includes (lineReaderTrim original) "Watching for file changes"
      · have h1 : (onLineEvent st Source.tsc original).2 =
            Action.taggedLog Source.tsc original :: (restartServer st).2 := by
          simp [onLineEvent, tscOnLine, hb, hI]
        rw [h1] at hmem
        rcases List.mem_cons.mp hmem with h | h
        · have := Action.taggedLog.inj h
          exact ⟨this.1, this.2⟩
        · exact absurd h (taggedLog_not_mem_restartServer st src text)
      · have h1 : (onLineEvent st Source.tsc original).2 =
            [Action.taggedLog Source.tsc original] := by
          simp [onLineEvent, tscOnLine, hb, hI]
        rw [h1] at hmem
        rcases List.mem_cons.mp hmem with h | h
        · have := Action.taggedLog.inj h
          exact ⟨this.1, this.2⟩
        · exact absurd h (by simp)

/-- Witness for C5 at the concrete state `stEx` with concrete lines. -/
theorem onLine_echo_original_witness :
    Action.taggedLog Source.tsc "Watching for file changes." ∈
      (onLineEvent stEx Source.tsc "Watching for file changes.").2 ∧
    onLineEvent stEx Source.tsc "   " = (stEx, []) := by
  have h1 := (onLine_echo_original stEx "Watching for file changes.").2.1 (by decide)
  have h2 := (onLine_echo_original stEx "   ").2.2.1 (by decide)
  exact ⟨h1, h2⟩

/-- C10: the editor-web-extension watcher's stdout has no line callback, so
none of its output lines is echoed or matched and none can cause a restart
(the dispatched reaction is empty and leaves the state unchanged); its stderr
is forwarded verbatim; and its exit event runs the cleanup routine, logging
its unexpected-exit message first and exiting the supervisor. -/
theorem webExtensions_stdout_ignored (st : WatchState) (original data : String)
    (code : Option Int) :
    (onLineEvent st Source.vscodeWebExtensions original = (st, [])) ∧
    (onStderrData st Source.vscodeWebExtensions data = [Action.writeStderr data]) ∧
    ((onExit st Source.vscodeWebExtensions code).2[0]? =
      some (Action.log "vs code extension watcher terminated unexpectedly")) ∧
    ((onExit st Source.vscodeWebExtensions code).2.getLast? =
      some (Action.exitProcess (orZero code))) ∧
    ((onExit st Source.vscodeWebExtensions code).1.exited = some (orZero code)) := by
  refine ⟨rfl, rfl, rfl, ?_, rfl⟩
  exact cleanup_cons_getLast st code "vs code extension watcher terminated unexpectedly"

/-- C2: when cleanup runs it processes the subprocesses in the fixed order
vscode watcher, web-extension watcher, tsc, plugin (if present), server (if
present); for each one it detaches all listeners before requesting
termination and logs a human-readable message before the kill step; absent
subprocesses are skipped; the final two actions are the `"killing watch"`
log and the supervisor's own process exit. -/
theorem cleanup_order (st : WatchState) (code : Option Int) :
    (precedes (cleanup st code).2
      (Action.removeAllListeners Source.vscode st.vscode.pid)
      (Action.kill Source.vscode st.vscode.pid)) ∧
    (precedes (cleanup st code).2
      (Action.removeAllListeners Source.vscodeWebExtensions st.vscodeWebExtensions.pid)
      (Action.kill Source.vscodeWebExtensions st.vscodeWebExtensions.pid)) ∧
    (precedes (cleanup st code).2
      (Action.removeAllListeners Source.tsc st.tsc.pid)
      (Action.kill Source.tsc st.tsc.pid)) ∧
    (∀ p, st.plugin = some p →
      precedes (cleanup st code).2
        (Action.removeAllListeners Source.plugin p.pid)
        (Action.kill Source.plugin p.pid)) ∧
    (∀ s, st.server = some s →
      precedes (cleanup st code).2
        (Action.removeAllListeners Source.server s.pid)
        (Action.kill Source.server s.pid)) ∧
    (precedes (cleanup st code).2 (Action.log "killing vs code watcher")
      (Action.kill Source.vscode st.vscode.pid)) ∧
    (precedes (cleanup st code).2 (Action.log "killing vs code web extension watcher")
      (Action.kill Source.vscodeWebExtensions st.vscodeWebExtensions.pid)) ∧
    (precedes (cleanup st code).2 (Action.log "killing tsc")
      (Action.kill Source.tsc st.tsc.pid)) ∧
    (∀ p, st.plugin = some p →
      precedes (cleanup st code).2 (Action.log "killing plugin")
        (Action.kill Source.plugin p.pid)) ∧
    (∀ s, st.server = some s →
      precedes (cleanup st code).2 (Action.log "killing server")
        (Action.kill Source.server s.pid)) ∧
    (precedes (cleanup st code).2 (Action.kill Source.vscode st.vscode.pid)
      (Action.kill Source.vscodeWebExtensions st.vscodeWebExtensions.pid)) ∧
    (precedes (cleanup st code).2
      (Action.kill Source.vscodeWebExtensions st.vscodeWebExtensions.pid)
      (Action.kill Source.tsc st.tsc.pid)) ∧
    (∀ p, st.plugin = some p →
      precedes (cleanup st code).2 (Action.kill Source.tsc st.tsc.pid)
        (Action.kill Source.plugin p.pid)) ∧
    (∀ s, st.server = some s →
      precedes (cleanup st code).2 (Action.kill Source.tsc st.tsc.pid)
        (Action.kill Source.server s.pid)) ∧
    (∀ p s, st.plugin = some p → st.server = some s →
      precedes (cleanup st code).2 (Action.kill Source.plugin p.pid)
        (Action.kill Source.server s.pid)) ∧
    (st.plugin = none → ∀ pid : Nat,
      Action.kill Source.plugin pid ∉ (cleanup st code).2 ∧
      Action.log "killing plugin" ∉ (cleanup st code).2) ∧
    (st.server = none → ∀ pid : Nat,
      Action.kill Source.server pid ∉ (cleanup st code).2 ∧
      Action.log "killing server" ∉ (cleanup st code).2) ∧
    ((cleanup st code).2.getLast? = some (Action.exitProcess (orZero code))) ∧
    ((cleanup st code).2[(cleanup st code).2.length - 2]? =
      some (Action.log "killing watch")) ∧
    ((cleanup st code).1.exited = some (orZero code)) := by
  rcases hp : st.plugin with _ | p <;> rcases hs : st.server with _ | s <;>
    simp only [cleanup, hp, hs]
  · exact ⟨⟨1, 2, by omega, rfl, rfl⟩, ⟨4, 5, by omega, rfl, rfl⟩,
      ⟨7, 8, by omega, rfl, rfl⟩,
      fun p h => Option.noConfusion h, fun s h => Option.noConfusion h,
      ⟨0, 2, by omega, rfl, rfl⟩, ⟨3, 5, by omega, rfl, rfl⟩,
      ⟨6, 8, by omega, rfl, rfl⟩,
      fun p h => Option.noConfusion h, fun s h => Option.noConfusion h,
      ⟨2, 5, by omega, rfl, rfl⟩, ⟨5, 8, by omega, rfl, rfl⟩,
      fun p h => Option.noConfusion h, fun s h => Option.noConfusion h,
      fun p s hps _ => Option.noConfusion hps,
      fun _ pid => ⟨by simp, by simp⟩, fun _ pid => ⟨by simp, by simp⟩,
      by trivial, by trivial, by trivial⟩
  · exact ⟨⟨1, 2, by omega, rfl, rfl⟩, ⟨4, 5, by omega, rfl, rfl⟩,
      ⟨7, 8, by omega, rfl, rfl⟩,
      fun p h => Option.noConfusion h,
      fun q h => by
        obtain rfl : s = q := Option.some.inj h
        exact ⟨10, 11, by omega, rfl, rfl⟩,
      ⟨0, 2, by omega, rfl, rfl⟩, ⟨3, 5, by omega, rfl, rfl⟩,
      ⟨6, 8, by omega, rfl, rfl⟩,
      fun p h => Option.noConfusion h,
      fun q h => by
        obtain rfl : s = q := Option.some.inj h
        exact ⟨9, 11, by omega, rfl, rfl⟩,
      ⟨2, 5, by omega, rfl, rfl⟩, ⟨5, 8, by omega, rfl, rfl⟩,
      fun p h => Option.noConfusion h,
      fun q h => by
        obtain rfl : s = q := Option.some.inj h
        exact ⟨8, 11, by omega, rfl, rfl⟩,
      fun p q hps _ => Option.noConfusion hps,
      fun _ pid => ⟨by simp, by simp⟩,
      fun h => Option.noConfusion h,
      by trivial, by trivial, by trivial⟩
  · exact ⟨⟨1, 2, by omega, rfl, rfl⟩, ⟨4, 5, by omega, rfl, rfl⟩,
      ⟨7, 8, by omega, rfl, rfl⟩,
      fun q h => by
        obtain rfl : p = q := Option.some.inj h
        exact ⟨10, 11, by omega, rfl, rfl⟩,
      fun s h => Option.noConfusion h,
      ⟨0, 2, by omega, rfl, rfl⟩, ⟨3, 5, by omega, rfl, rfl⟩,
      ⟨6, 8, by omega, rfl, rfl⟩,
      fun q h => by
        obtain rfl : p = q := Option.some.inj h
        exact ⟨9, 11, by omega, rfl, rfl⟩,
      fun s h => Option.noConfusion h,
      ⟨2, 5, by omega, rfl, rfl⟩, ⟨5, 8, by omega, rfl, rfl⟩,
      fun q h => by
        obtain rfl : p = q := Option.some.inj h
        exact ⟨8, 11, by omega, rfl, rfl⟩,
      fun s h => Option.noConfusion h,
      fun q s _ hss => Option.noConfusion hss,
      fun h => Option.noConfusion h,
      fun _ pid => ⟨by simp, by simp⟩,
      by trivial, by trivial, by trivial⟩
  · exact ⟨⟨1, 2, by omega, rfl, rfl⟩, ⟨4, 5, by omega, rfl, rfl⟩,
      ⟨7, 8, by omega, rfl, rfl⟩,
      fun q h => by
        obtain rfl : p = q := Option.some.inj h
        exact ⟨10, 11, by omega, rfl, rfl⟩,
      fun q h => by
        obtain rfl : s = q := Option.some.inj h
        exact ⟨13, 14, by omega, rfl, rfl⟩,
      ⟨0, 2, by omega, rfl, rfl⟩, ⟨3, 5, by omega, rfl, rfl⟩,
      ⟨6, 8, by omega, rfl, rfl⟩,
      fun q h => by
        obtain rfl : p = q := Option.some.inj h
        exact ⟨9, 11, by omega, rfl, rfl⟩,
      fun q h => by
        obtain rfl : s = q := Option.some.inj h
        exact ⟨12, 14, by omega, rfl, rfl⟩,
      ⟨2, 5, by omega, rfl, rfl⟩, ⟨5, 8, by omega, rfl, rfl⟩,
      fun q h => by
        obtain rfl : p = q := Option.some.inj h
        exact ⟨8, 11, by omega, rfl, rfl⟩,
      fun q h => by
        obtain rfl : s = q := Option.some.inj h
        exact ⟨8, 14, by omega, rfl, rfl⟩,
      fun q r hq hr => by
        obtain rfl : p = q := Option.some.inj hq
        obtain rfl : s = r := Option.some.inj hr
        exact ⟨11, 14, by omega, rfl, rfl⟩,
      fun h => Option.noConfusion h,
      fun h => Option.noConfusion h,
      by trivial, by trivial, by trivial⟩

/-- Witness for C2 at the concrete state `stEx` with exit code 2. -/
theorem cleanup_order_witness :
    precedes (cleanup stEx (some 2)).2
      (Action.removeAllListeners Source.plugin 4) (Action.kill Source.plugin 4) ∧
    precedes (cleanup stEx (some 2)).2
      (Action.removeAllListeners Source.server 7) (Action.kill Source.server 7) ∧
    (cleanup stEx (some 2)).2.getLast? = some (Action.exitProcess 2) := by
  obtain ⟨c1, c2, c3, c4, c5, c6, c7, c8, c9, c10, c11, c12, c13, c14, c15,
    c16, c17, c18, c19, c20⟩ := cleanup_order stEx (some 2)
  exact ⟨c4 ⟨4⟩ rfl, c5 ⟨7⟩ rfl, c18⟩

/-- The predicate `pluginFree` distributes over trace concatenation. -/
theorem pluginFree_append (l1 l2 : List Action) :
    pluginFree (l1 ++ l2) = (pluginFree l1 && pluginFree l2) := by
  simp [pluginFree]

/-- A restart touches only the server process, never the plugin. -/
theorem restartServer_pluginFree (st : WatchState) :
    pluginFree (restartServer st).2 = true := by
  cases h : st.server <;> simp only [restartServer, h] <;> rfl

/-- With no plugin subprocess, cleanup performs no plugin-related action. -/
theorem cleanup_pluginFree (st : WatchState) (code : Option Int)
    (h : st.plugin = none) : pluginFree (cleanup st code).2 = true := by
  cases hs : st.server <;> simp only [cleanup, h, hs] <;> rfl

/-- The vscode line callback does not change the plugin field and performs
no plugin-related action. -/
theorem vscodeOnLine_no_plugin (st : WatchState) (original : String) :
    ((vscodeOnLine st original).1.plugin = st.plugin) ∧
    pluginFree (vscodeOnLine st original).2 = true := by
  by_cases hI : includes (lineReaderTrim original) "Finished compilation"
  · have h1 : vscodeOnLine st original =
        ((restartServer st).1,
          Action.taggedLog Source.vscode original :: (restartServer st).2) := by
      simp [vscodeOnLine, hI]
    rw [h1]
    exact ⟨rfl, restartServer_pluginFree st⟩
  · have h1 : vscodeOnLine st original =
        (st, [Action.taggedLog Source.vscode original]) := by
      simp [vscodeOnLine, hI]
    rw [h1]
    exact ⟨rfl, rfl⟩

/-- The tsc line callback does not change the plugin field and performs no
plugin-related action. -/
theorem tscOnLine_no_plugin (st : WatchState) (original : String) :
    ((tscOnLine st original).1.plugin = st.plugin) ∧
    pluginFree (tscOnLine st original).2 = true := by
  by_cases hI : includes (lineReaderTrim original) "Watching for file changes" <;>
    by_cases hb : lineReaderTrim original = ""
  · rw [hb] at hI
    exact absurd hI (by decide)
  · have h1 : tscOnLine st original =
        ((restartServer st).1,
          Action.taggedLog Source.tsc original :: (restartServer st).2) := by
      simp [tscOnLine, hb, hI]
    rw [h1]
    exact ⟨rfl, restartServer_pluginFree st⟩
  · have h1 : tscOnLine st original = (st, []) := by
      rw [hb] at hI
      simp only [Bool.not_eq_true] at hI
      simp [tscOnLine, hb, hI]
    rw [h1]
    exact ⟨rfl, rfl⟩
  · have h1 : tscOnLine st original = (st, [Action.taggedLog Source.tsc original]) := by
      simp only [Bool.not_eq_true] at hI
      simp [tscOnLine, hb, hI]
    rw [h1]
    exact ⟨rfl, rfl⟩

/-- A single reaction of the supervisor preserves the absence of the plugin
subprocess and performs no plugin-related action. -/
theorem step_pluginFree (st : WatchState) (e : Event) (h : st.plugin = none) :
    (step st e).1.plugin = none ∧ pluginFree (step st e).2 = true := by
  cases e with
  | line src original =>
    cases src with
    | vscode =>
      have hv := vscodeOnLine_no_plugin st original
      exact ⟨hv.1.trans h, hv.2⟩
    | tsc =>
      have ht := tscOnLine_no_plugin st original
      exact ⟨ht.1.trans h, ht.2⟩
    | plugin =>
      have h1 : step st (Event.line Source.plugin original) = (st, []) := by
        simp [step, onLineEvent, h]
      rw [h1]
      exact ⟨h, rfl⟩
    | vscodeWebExtensions => exact ⟨h, rfl⟩
    | server => exact ⟨h, rfl⟩
  | exitEvent src code =>
    cases src with
    | vscode => exact ⟨h, cleanup_pluginFree st code h⟩
    | vscodeWebExtensions => exact ⟨h, cleanup_pluginFree st code h⟩
    | tsc => exact ⟨h, cleanup_pluginFree st code h⟩
    | plugin =>
      have h1 : step st (Event.exitEvent Source.plugin code) = (st, []) := by
        simp [step, onExit, h]
      rw [h1]
      exact ⟨h, rfl⟩
    | server =>
      cases hs : st.server with
      | none =>
        have h1 : step st (Event.exitEvent Source.server code) = (st, []) := by
          simp [step, onExit, hs]
        rw [h1]
        exact ⟨h, rfl⟩
      | some s =>
        have h1 : step st (Event.exitEvent Source.server code) =
            serverExitListener s.pid st := by
          simp [step, onExit, hs]
        rw [h1]
        exact ⟨h, rfl⟩
  | signal sig =>
    cases sig with
    | SIGINT => exact ⟨h, cleanup_pluginFree st none h⟩
    | SIGTERM => exact ⟨h, cleanup_pluginFree st none h⟩
  | stderrData src data =>
    cases src with
    | vscode => exact ⟨h, rfl⟩
    | vscodeWebExtensions => exact ⟨h, rfl⟩
    | tsc => exact ⟨h, rfl⟩
    | plugin =>
      have h1 : step st (Event.stderrData Source.plugin data) = (st, []) := by
        simp [step, onStderrData, h]
      rw [h1]
      exact ⟨h, rfl⟩
    | server => exact ⟨h, rfl⟩

/-- Running any sequence of events from a plugin-less state stays
plugin-less and performs no plugin-related action. -/
theorem run_pluginFree (es : List Event) :
    ∀ st : WatchState, st.plugin = none →
      (run st es).1.plugin = none ∧ pluginFree (run st es).2 = true := by
  induction es with
  | nil => exact fun st h => ⟨h, rfl⟩
  | cons e es ih =>
    intro st h
    obtain ⟨h1, h2⟩ := step_pluginFree st e h
    obtain ⟨h3, h4⟩ := ih (step st e).1 h1
    constructor
    · show (run (step st e).1 es).1.plugin = none
      exact h3
    · show pluginFree ((step st e).2 ++ (run (step st e).1 es).2) = true
      rw [pluginFree_append, h2, h4]
      rfl

/-- An action touching the plugin never belongs to a plugin-free trace. -/
theorem pluginFree_not_mem (acts : List Action) (hf : pluginFree acts = true)
    (a : Action) (ha : mentionsPlugin a = true) : a ∉ acts := by
  intro hmem
  have h2 := List.all_eq_true.mp hf a hmem
  rw [ha] at h2
  exact absurd h2 (by decide)

/-- C7: when PLUGIN_DIR is unset, over any whole session (setup plus any
sequence of events) no plugin subprocess is ever spawned, no plugin-tagged
line is ever echoed, the cleanup routine never performs its plugin-kill step
nor logs its plugin-kill message, and the plugin slot stays empty. -/
theorem watchRun_no_plugin (argv : List String) (es : List Event) :
    ((watchRun none argv es).1.plugin = none) ∧
    (pluginFree (watchRun none argv es).2 = true) ∧
    (∀ (cmd : String) (args : List String) (pid : Nat),
      Action.spawn Source.plugin cmd args pid ∉ (watchRun none argv es).2) ∧
    (∀ text : String,
      Action.taggedLog Source.plugin text ∉ (watchRun none argv es).2) ∧
    (Action.log "killing plugin" ∉ (watchRun none argv es).2) ∧
    (∀ pid : Nat, Action.kill Source.plugin pid ∉ (watchRun none argv es).2) := by
  have hr := run_pluginFree es (setup none argv).1 rfl
  have h1 : (watchRun none argv es).1.plugin = none := hr.1
  have h2 : pluginFree (watchRun none argv es).2 = true := by
    show pluginFree ((setup none argv).2 ++ (run (setup none argv).1 es).2) = true
    rw [pluginFree_append, hr.2]
    rfl
  refine ⟨h1, h2, ?_, ?_, ?_, ?_⟩
  · exact fun cmd args pid => pluginFree_not_mem _ h2 _ rfl
  · exact fun text => pluginFree_not_mem _ h2 _ rfl
  · exact pluginFree_not_mem _ h2 _ rfl
  · exact fun pid => pluginFree_not_mem _ h2 _ rfl

end Watch
